import Mathlib

/-
Verification of the acreta session-adapter layer (src/acreta/adapters/cursor.py
and src/acreta/adapters/opencode.py) against its natural-language specification.

The adapters are embedded shallowly:
  * JSON values are the inductive `Json`; Python dicts are association lists
    (first binding wins on lookup, duplicate keys cannot arise from `json.loads`).
  * `json.loads` on raw strings is an uninterpreted parameter
    `sdec : String → Option Json` (none = JSONDecodeError); theorems quantify
    over it, witnesses use a small concrete table decoder.
  * Python truthiness, `or`-chains, `str()`, `.strip()`, slicing and substring
    tests are modelled explicitly (`truthy`, `pyOr`, `pyStr`, `pyStrip`,
    `pyTake`, `strContains`).
  * Instants are epoch milliseconds as `Int`; `datetime.isoformat` rendering is
    modelled by keeping the instant itself.
  * Filesystem/SQLite state is explicit: a Cursor database is its key/value row
    list (plus a `broken` flag for `sqlite3.Error` paths); an OpenCode storage
    root is its `session/`, `message/{id}/` and `part/{id}/` file trees.
  * Python exceptions the source does not catch (`AttributeError` from `.get`
    on a truthy non-dict, `ValueError`/`TypeError` from `int()`) are modelled
    as the bare `none` level of `Option`-valued results and propagate through
    the OpenCode `read_session`/`iter_sessions`; a Python `return None` is the
    distinct value `some none`.
-/

inductive Json where
  | null
  | bool (b : Bool)
  | num (n : Int)
  | str (s : String)
  | arr (elems : List Json)
  | obj (fields : List (String × Json))
deriving Repr

namespace Json

/-- Python truthiness of a decoded JSON value (`bool(x)`). -/
def truthy : Json → Bool
  | .null => false
  | .bool b => b
  | .num n => n != 0
  | .str s => s != ""
  | .arr l => !l.isEmpty
  | .obj l => !l.isEmpty

/-- Python `a or b`: the first operand when truthy, otherwise the second. -/
def pyOr (a b : Json) : Json := if a.truthy then a else b

/-- Python `==` between a decoded JSON value and a Python string: true exactly
when the value is that string (no cross-type equality involves `str`). -/
def eqStr (j : Json) (s : String) : Bool :=
  match j with
  | .str t => t == s
  | _ => false

end Json

/-- `dict` key lookup returning the stored value when the key is present
(`key in d` + `d[key]`). -/
def lookupField : List (String × Json) → String → Option Json
  | [], _ => none
  | (k, v) :: rest, key => if k = key then some v else lookupField rest key

/-- Python `d.get(key)`: the stored value, or `None` when absent. -/
def jget (j : Json) (key : String) : Json :=
  match j with
  | .obj fields => (lookupField fields key).getD .null
  | _ => .null

mutual
/-- Python `repr` of a decoded JSON value (string escaping inside `repr` of
`str` elements is not modelled; no claim inspects those characters). -/
def pyRepr : Json → String
  | .null => "None"
  | .bool b => if b then "True" else "False"
  | .num n => toString n
  | .str s => "\x27" ++ s ++ "\x27"
  | .arr l => "[" ++ String.intercalate ", " (pyReprList l) ++ "]"
  | .obj l => "\x7b" ++ String.intercalate ", " (pyReprFields l) ++ "\x7d"

def pyReprList : List Json → List String
  | [] => []
  | j :: rest => pyRepr j :: pyReprList rest

def pyReprFields : List (String × Json) → List String
  | [] => []
  | (k, v) :: rest => ("\x27" ++ k ++ "\x27: " ++ pyRepr v) :: pyReprFields rest
end

/-- Python `str()` of a decoded JSON value. -/
def pyStr : Json → String
  | .str s => s
  | v => pyRepr v

/-- Python string slicing `s[:n]` (by code point). -/
def pyTake (n : Nat) (s : String) : String := ⟨s.data.take n⟩

/-- Python `s.strip()`: drop leading and trailing whitespace. -/
def pyStrip (s : String) : String :=
  ⟨((s.data.dropWhile Char.isWhitespace).reverse.dropWhile Char.isWhitespace).reverse⟩

/-- The characters after the first occurrence of `needle` in `l`
(`l.split(needle, 1)[1]`); `none` when `needle` (nonempty in every use) does
not occur. -/
def listAfterFirst (needle : List Char) : List Char → Option (List Char)
  | [] => none
  | c :: rest =>
    if needle.isPrefixOf (c :: rest) then some ((c :: rest).drop needle.length)
    else listAfterFirst needle rest

/-- Python `needle in hay` (nonempty `needle`); also models SQLite
`LIKE '%needle%'` (SQLite LIKE is ASCII-case-insensitive; no claim involves
letter case, so case folding is not modelled). -/
def strContains (hay needle : String) : Bool :=
  (listAfterFirst needle.data hay.data).isSome

/-- Python `hay.split(needle, 1)[1]` for a needle known to occur. -/
def strAfterFirst (needle hay : String) : Option String :=
  (listAfterFirst needle.data hay.data).map (fun l => ⟨l⟩)

/-- `s.startswith(pre)`; also models SQLite `LIKE 'pre%'`. -/
def strStartsWith (s pre : String) : Bool := pre.data.isPrefixOf s.data

/-- `s.lower()` (ASCII; the role aliases compared against are all ASCII). -/
def pyLower (s : String) : String := ⟨s.data.map Char.toLower⟩

/-- Modelled from the spec: `acreta/adapters/common.py` is not in the corpus.
§4.1: `parse_timestamp` accepts `null` (→ `null`), epoch seconds, or epoch
milliseconds distinguished by magnitude (above 10^12 → milliseconds); the
canonical instant is modelled as epoch milliseconds. ISO-8601 string parsing
is not modelled (no claim is exercised on string timestamps); unparseable
input yields `null`, never raises. -/
def parse_timestamp : Json → Option Int
  | .num n => some (if n > 1000000000000 then n else n * 1000)
  | _ => none

/-- Modelled from the spec: `acreta/adapters/common.py` is not in the corpus.
§4.1: a `null` instant is never in a bounded window (fails closed) unless both
bounds are `null` (the unbounded window accepts everything, including unknown
timestamps); bound comparisons are inclusive on both ends. -/
def in_window (t s e : Option Int) : Bool :=
  match s, e with
  | none, none => true
  | _, _ =>
    match t with
    | none => false
    | some tv =>
      (match s with | none => true | some sv => decide (sv ≤ tv)) &&
      (match e with | none => true | some ev => decide (tv ≤ ev))

/-- Modelled from the spec: `acreta/adapters/base.py` is not in the corpus.
§3: one normalized utterance or tool invocation. -/
structure ViewerMessage where
  role : String
  content : Option String := none
  tool_name : Option String := none
  tool_input : Json := .null
  tool_output : Json := .null
  timestamp : Option Int := none
deriving Repr

/-- Modelled from the spec: `acreta/adapters/base.py` is not in the corpus.
§3: the full normalized transcript of one session. -/
structure ViewerSession where
  session_id : String
  cwd : Json := .null
  messages : List ViewerMessage := []
  total_input_tokens : Int := 0
  total_output_tokens : Int := 0
  meta : Json := .null
deriving Repr

/-- Modelled from the spec: `acreta/adapters/base.py` is not in the corpus.
§3: the lightweight index entry produced by adapters during enumeration. -/
structure SessionRecord where
  run_id : String
  agent_type : String
  session_path : String
  start_time : Option Int := none
  message_count : Nat := 0
  tool_call_count : Nat := 0
  summaries : List String := []
  repo_name : Option String := none
  total_tokens : Option Int := none
deriving Repr

/-! ## Cursor adapter (src/acreta/adapters/cursor.py)

A Cursor store is one or more `state.vscdb` SQLite files; each is modelled as
its `cursorDiskKV` row list `(key, value)` in table order, with a `broken`
flag for files on which every SQLite call raises `sqlite3.Error`. A missing
storage root is the `none` case of `Option (List CursorDB)`; `_resolve_db_paths`
is modelled as the list of databases itself. -/

structure CursorDB where
  path : String
  broken : Bool := false
  rows : List (String × String)
deriving Repr

/-- `_cursor_rows`: the rows whose key matches `composerData:%` or
`bubbleId:%` (`[]` on `sqlite3.Error`). -/
def cursorRows (db : CursorDB) : List (String × String) :=
  if db.broken then []
  else db.rows.filter (fun kv =>
    strStartsWith kv.1 "composerData:" || strStartsWith kv.1 "bubbleId:")

/-- `_extract_session_id`: the part of the key after the first
`composerData:`, else after the first `bubbleId:`, else `None`. -/
def extractSessionId (key : String) : Option String :=
  match strAfterFirst "composerData:" key with
  | some rest => some rest
  | none =>
    match strAfterFirst "bubbleId:" key with
    | some rest => some rest
    | none => none

/-- `_parse_json_value`: parse a possibly double-encoded JSON value; a failed
first parse is `None`, a string result is parsed again, keeping the string
when the second parse fails. -/
def parseJsonValue (sdec : String → Option Json) (raw : String) : Option Json :=
  match sdec raw with
  | none => none
  | some v =>
    match v with
    | .str s =>
      (match sdec s with
       | none => some (.str s)
       | some inner => some inner)
    | _ => some v

/-- `_normalize_role`: `str(value or "").lower()` matched against the alias
tables, defaulting to `assistant`. -/
def normalizeRole (v : Json) : String :=
  let role := pyLower (pyStr (Json.pyOr v (.str "")))
  if role = "user" || role = "human" || role = "human_user" then "user"
  else if role = "assistant" || role = "ai" || role = "bot" || role = "model" then
    "assistant"
  else if role = "tool" || role = "function" then "tool"
  else "assistant"

/-- Python `record.get(key)` on a message record (a dict). -/
def recGet (r : List (String × Json)) (key : String) : Json :=
  (lookupField r key).getD .null

/-- Python `isinstance(x, int)` on a decoded JSON value (`bool` is a subclass
of `int`; decoded floats are not modelled — no claim involves them). -/
def isPyInt : Json → Bool
  | .num _ => true
  | .bool _ => true
  | _ => false

/-- Python `x == 1` for an isinstance-int value (`True == 1` holds). -/
def pyEqOne : Json → Bool
  | .num n => n == 1
  | .bool b => b
  | _ => false

/-- Python `int(s)` on a string: optional surrounding whitespace, optional
sign, ASCII decimal digits; `none` models the `ValueError` raised otherwise
(digit grouping underscores and non-ASCII digits are not modelled). -/
def pyIntString (s : String) : Option Int :=
  let t := (pyStrip s).data
  let signed : Int × List Char :=
    match t with
    | '-' :: rest => (-1, rest)
    | '+' :: rest => (1, rest)
    | l => (1, l)
  if signed.2 ≠ [] && signed.2.all Char.isDigit then
    some (signed.1 * Int.ofNat
      (signed.2.foldl (fun acc c => acc * 10 + (c.toNat - 48)) 0))
  else none

/-- Python `int(x)`: the identity on ints (and bools), decimal parsing on
strings (`ValueError` → `none`), and `TypeError` → `none` on `None`, lists
and dicts. -/
def pyInt : Json → Option Int
  | .num n => some n
  | .bool b => some (if b then 1 else 0)
  | .str s => pyIntString s
  | _ => none

/-- Python `x.get(key)` where `x` may not be a dict: `none` models the
`AttributeError` raised on a non-dict receiver; on a dict, the stored value
or `None`. -/
def dictGet (x : Json) (key : String) : Option Json :=
  match x with
  | .obj fields => some ((lookupField fields key).getD .null)
  | _ => none

/-- The candidate keys `_extract_text` probes on a dict, in order. -/
def textKeys : List String := ["text", "content", "message", "value"]

/-- `for key in keys: if key in value: return value[key]` — the value at the
first present key. -/
def firstPresent (fields : List (String × Json)) : List String → Option Json
  | [] => none
  | k :: ks =>
    match lookupField fields k with
    | some v => some v
    | none => firstPresent fields ks

mutual
/-- The structural size of a JSON value — an executable recursion-depth
bound for `_extract_text`. -/
def jsonSize : Json → Nat
  | .null => 1
  | .bool _ => 1
  | .num _ => 1
  | .str _ => 1
  | .arr l => jsonSizeList l + 1
  | .obj l => jsonSizeFields l + 1

def jsonSizeList : List Json → Nat
  | [] => 0
  | j :: rest => jsonSize j + jsonSizeList rest + 1

def jsonSizeFields : List (String × Json) → Nat
  | [] => 0
  | (_, v) :: rest => jsonSize v + jsonSizeFields rest + 1
end

/-- `_extract_text` with an explicit recursion-depth budget (making the
function structurally recursive, hence computable by reduction) — `None` →
`""`, strings as-is, dicts via the first present text key, lists by joining
nonempty member texts with newlines, everything else `str(value)`. The budget
only shrinks on recursion into a strictly smaller subterm, so any
`fuel ≥ jsonSize j` reproduces the unbounded Python recursion exactly
(`extractTextFuel_congr` below). -/
def extractTextFuel : Nat → Json → String
  | _, .null => ""
  | _, .bool b => pyStr (.bool b)
  | _, .num n => pyStr (.num n)
  | _, .str s => s
  | fuel + 1, .obj fields =>
    (match firstPresent fields textKeys with
     | some v => extractTextFuel fuel v
     | none => pyStr (.obj fields))
  | fuel + 1, .arr elems =>
    String.intercalate "\n"
      ((elems.map (extractTextFuel fuel)).filter (fun p => p ≠ ""))
  | 0, .obj fields => pyStr (.obj fields)
  | 0, .arr elems => pyStr (.arr elems)

/-- `_extract_text`: the fuelled recursion at its own size budget. -/
def extractText (j : Json) : String := extractTextFuel (jsonSize j) j

/-- The message-array keys `_extract_message_records` probes, in order. -/
def msgListKeys : List String := ["chunks", "messages", "conversation", "items"]

/-- `records = payload.get(key); if isinstance(records, list): return …` —
the first key whose value is a list. -/
def firstListOf (j : Json) : List String → Option (List Json)
  | [] => none
  | k :: ks =>
    match jget j k with
    | .arr l => some l
    | _ => firstListOf j ks

/-- `[r for r in records if isinstance(r, dict)]`. -/
def onlyObjs (l : List Json) : List (List (String × Json)) :=
  l.filterMap (fun j => match j with | .obj f => some f | _ => none)

/-- `_extract_message_records`: the first list under a message-array key of
the payload, else of its `data` sub-dict, keeping only dict entries. -/
def extractMessageRecords (payload : Json) : List (List (String × Json)) :=
  match payload with
  | .obj _ =>
    (match firstListOf payload msgListKeys with
     | some l => onlyObjs l
     | none =>
       match jget payload "data" with
       | .obj dataFields =>
         (match firstListOf (.obj dataFields) msgListKeys with
          | some l => onlyObjs l
          | none => [])
       | _ => [])
  | _ => []

/-- The body of `_parse_messages`' loop for one record: normalized role
(integer `type` codes override the alias table), extracted text (skipping
records whose text is whitespace-only), and parsed timestamp. -/
def parseRecord (r : List (String × Json)) : Option (String × String × Option Int) :=
  let roleAlias := normalizeRole
    (Json.pyOr (recGet r "role") (Json.pyOr (recGet r "author") (recGet r "sender")))
  let role :=
    match lookupField r "type" with
    | some t => if isPyInt t then (if pyEqOne t then "user" else "assistant")
                else roleAlias
    | none => roleAlias
  let text := extractText
    (Json.pyOr (recGet r "text")
      (Json.pyOr (recGet r "content") (Json.pyOr (recGet r "message") (.obj r))))
  if pyStrip text = "" then none
  else
    let ts := parse_timestamp
      (Json.pyOr (recGet r "timestamp")
        (Json.pyOr (recGet r "createdAt")
          (Json.pyOr (recGet r "created_at") (recGet r "time"))))
    some (role, text, ts)

/-- The append loop of `_parse_messages` over the extracted records. -/
def parseRecords : List (List (String × Json)) → List (String × String × Option Int)
  | [] => []
  | r :: rest =>
    match parseRecord r with
    | none => parseRecords rest
    | some m => m :: parseRecords rest

/-- `_parse_messages`: normalized `(role, text, timestamp)` tuples of a
payload, in storage order. -/
def parseMessages (payload : Json) : List (String × String × Option Int) :=
  parseRecords (extractMessageRecords payload)

/-- The row lookup of `read_session`: first row keyed `composerData:<sid>`,
else first row keyed `bubbleId:<sid>`, else first row whose key contains
`sid` (`LIKE '%sid%'`). -/
def cursorFindRow (rows : List (String × String)) (sid : String) :
    Option (String × String) :=
  match rows.find? (fun kv => kv.1 == "composerData:" ++ sid) with
  | some row => some row
  | none =>
    match rows.find? (fun kv => kv.1 == "bubbleId:" ++ sid) with
    | some row => some row
    | none => rows.find? (fun kv => strContains kv.1 sid)

/-- `read_session` (cursor): `none` models a missing DB file or a missing
session id; a broken DB raises `sqlite3.Error`, caught as `None`. The located
row's value must double-decode to a dict, whose messages are normalized in
order. -/
def cursorReadSession (sdec : String → Option Json) (db : Option CursorDB)
    (sid : Option String) : Option ViewerSession :=
  match db with
  | none => none
  | some db =>
    match sid with
    | none => none
    | some sid =>
      if sid = "" then none
      else if db.broken then none
      else
        match cursorFindRow db.rows sid with
        | none => none
        | some row =>
          match parseJsonValue sdec row.2 with
          | some (.obj fields) =>
            some { session_id := sid,
                   messages := (parseMessages (.obj fields)).map (fun m =>
                     { role := m.1, content := some m.2.1, timestamp := m.2.2 }) }
          | _ => none

/-- One DB of `find_session_path`'s loop: an exact `composerData:`/`bubbleId:`
key hit returns the DB; otherwise the first `LIKE '%target%'` row is checked
for either marker substring. Broken DBs are skipped (`except: continue`). -/
def cursorHitInDB (db : CursorDB) (target : String) : Bool :=
  if db.broken then false
  else if db.rows.any (fun kv => kv.1 == "composerData:" ++ target) then true
  else if db.rows.any (fun kv => kv.1 == "bubbleId:" ++ target) then true
  else
    match db.rows.find? (fun kv => strContains kv.1 target) with
    | some kv => strContains kv.1 "composerData:" || strContains kv.1 "bubbleId:"
    | none => false

def cursorFindPathLoop (target : String) : List CursorDB → Option String
  | [] => none
  | db :: rest =>
    if cursorHitInDB db target then some db.path else cursorFindPathLoop target rest

/-- `find_session_path` (cursor): `none` for a missing root or blank id, else
the first DB (in `_resolve_db_paths` order) that hits. -/
def cursorFindSessionPath (root : Option (List CursorDB)) (sid : String) :
    Option String :=
  match root with
  | none => none
  | some dbs =>
    let target := pyStrip sid
    if target = "" then none
    else cursorFindPathLoop target dbs

/-- The summary-collection loop shared in shape by both adapters: per item,
conditionally append a 140-char excerpt, then stop once five are collected. -/
def summariesLoop {α : Type} (pick : α → Option String) (acc : List String) :
    List α → List String
  | [] => acc
  | x :: rest =>
    let acc' :=
      match pick x with
      | some c => acc ++ [pyTake 140 c]
      | none => acc
    if 5 ≤ acc'.length then acc' else summariesLoop pick acc' rest

/-- The cursor summary condition: `cleaned = text.strip(); if cleaned: …`. -/
def cursorSummaryPick (m : String × String × Option Int) : Option String :=
  let c := pyStrip m.2.1
  if c = "" then none else some c

/-- The per-row body of `iter_sessions` (cursor), after the run-id and
known-ids checks: decode the payload (dicts only), parse messages, take the
earliest message timestamp, filter by window, and build the record. -/
def cursorRecordOfRow (sdec : String → Option Json) (ws we : Option Int)
    (dbPath rid raw : String) : Option SessionRecord :=
  match parseJsonValue sdec raw with
  | some (.obj fields) =>
    let msgs := parseMessages (.obj fields)
    let startedAt := (msgs.filterMap (fun m => m.2.2)).min?
    if in_window startedAt ws we then
      some { run_id := rid, agent_type := "cursor", session_path := dbPath,
             start_time := startedAt,
             message_count :=
               (msgs.filter (fun m => m.1 == "user" || m.1 == "assistant")).length,
             tool_call_count := (msgs.filter (fun m => m.1 == "tool")).length,
             summaries := summariesLoop cursorSummaryPick [] msgs }
    else none
  | _ => none

/-- The row loop of `iter_sessions` (cursor) over one DB's filtered rows;
`known = []` models `known_run_ids=None` (an empty set filters nothing either
way, matching `if known_run_ids and run_id in known_run_ids`). -/
def cursorRowsLoop (sdec : String → Option Json) (ws we : Option Int)
    (known : List String) (dbPath : String) :
    List (String × String) → List SessionRecord
  | [] => []
  | (k, raw) :: rest =>
    let hit :=
      match extractSessionId k with
      | none => none
      | some rid =>
        if rid = "" then none
        else if known.contains rid then none
        else cursorRecordOfRow sdec ws we dbPath rid raw
    match hit with
    | none => cursorRowsLoop sdec ws we known dbPath rest
    | some record => record :: cursorRowsLoop sdec ws we known dbPath rest

/-- `iter_sessions` (cursor): `none` models a missing root (`[]` returned);
otherwise every resolved DB's conversation rows are scanned in order. -/
def cursorIterSessions (sdec : String → Option Json)
    (root : Option (List CursorDB)) (ws we : Option Int) (known : List String) :
    List SessionRecord :=
  match root with
  | none => []
  | some dbs =>
    dbs.flatMap (fun db => cursorRowsLoop sdec ws we known db.path (cursorRows db))

/-! ## OpenCode adapter (src/acreta/adapters/opencode.py)

An OpenCode storage root (one element of `_resolve_storage_roots`'s result) is
modelled as its `session/` JSON files (in `rglob` order), its
`message/{session_id}/` directories and its `part/{message_id}/` directories;
an association-list entry models directory existence. A store whose root is
missing or contains no `session` directory resolves to the empty root list.
File contents are raw strings decoded by `sdec`. `read_session` is modelled
for a file whose owning storage root resolves (via `_find_storage_root_for_session`
or the `parent.name == "session"` fallback — the unresolvable branch returns
the same empty-messages session shape). -/

structure OCFile where
  stem : String
  content : String
deriving Repr

structure OCRoot where
  path : String
  sessionFiles : List OCFile
  messageDirs : List (String × List OCFile)
  partDirs : List (String × List OCFile)
deriving Repr

/-- `_parse_json_file`: a JSON object from disk, `None` on OS errors, invalid
JSON, or non-dict documents. -/
def parseJsonFile (sdec : String → Option Json) (content : String) :
    Option (List (String × Json)) :=
  match sdec content with
  | some (.obj fields) => some fields
  | _ => none

/-- Directory lookup under `message/` or `part/`: `none` models a directory
that does not exist. -/
def lookupDir (dirs : List (String × List OCFile)) (key : String) :
    Option (List OCFile) :=
  (dirs.find? (fun d => d.1 == key)).map (fun d => d.2)

/-- `resolved_id = str(payload.get("id") or session_id or session_path.stem)`. -/
def ocResolvedId (payload : Json) (sid : Option String) (stem : String) : String :=
  let sidJson : Json := match sid with | none => .null | some s => .str s
  pyStr (Json.pyOr (jget payload "id") (Json.pyOr sidJson (.str stem)))

/-- `created_ms = int(((msg.get("time") or {}).get("created")) or 0)` — the
sort key of one message entry. `none` models a raise: `AttributeError` when
the `time` field is a truthy non-dict, `ValueError`/`TypeError` from `int()`
on a truthy non-numeric `created`. -/
def ocCreatedMs (msg : List (String × Json)) : Option Int := do
  let created ← dictGet (Json.pyOr (recGet msg "time") (.obj [])) "created"
  pyInt (Json.pyOr created (.num 0))

/-- Stable insertion of `x` before the first element whose key is not
strictly smaller: elements with equal keys keep their original relative
order. -/
def insertSorted {α : Type} (key : α → Int) (x : α) : List α → List α
  | [] => [x]
  | y :: rest =>
    if key y < key x then y :: insertSorted key x rest else x :: y :: rest

/-- Stable ascending sort by key — extensionally Python's stable
`list.sort(key=…)`. -/
def stableSortByKey {α : Type} (key : α → Int) : List α → List α
  | [] => []
  | x :: rest => insertSorted key x (stableSortByKey key rest)

/-- The message-entry sort of `read_session`:
`message_entries.sort(key=lambda item: item[0])`. -/
def ocSortEntries (entries : List (Int × List (String × Json))) :
    List (Int × List (String × Json)) :=
  stableSortByKey (fun e => e.1) entries

/-- One `type == "tool"` part of `read_session`: `none` models the
`AttributeError` raised when `state` (after `or {}`) or `state.time` (after
`or {}`) is a truthy non-dict; keyword arguments are evaluated in source
order (`tool_input`, `tool_output`, `timestamp`). -/
def ocToolMessage (p : List (String × Json)) : Option ViewerMessage := do
  let toolName := pyStr (Json.pyOr (jget (Json.obj p) "tool") (.str "tool"))
  let state := Json.pyOr (jget (Json.obj p) "state") (.obj [])
  let tin ← dictGet state "input"
  let tout ← dictGet state "output"
  let tstart ← dictGet (Json.pyOr (jget state "time") (.obj [])) "start"
  pure { role := "tool", tool_name := some toolName, tool_input := tin,
         tool_output := tout, timestamp := parse_timestamp tstart }

/-- The `part/` loop of `read_session`: text parts collect stripped nonempty
text fragments; tool parts append tool `ViewerMessage`s immediately; other
or unparseable parts are skipped. `none` propagates a raise from a tool
part's `state` handling. -/
def ocPartsLoop (sdec : String → Option Json) :
    List OCFile → Option (List String × List ViewerMessage)
  | [] => some ([], [])
  | pf :: rest => do
    let (texts, tools) ← ocPartsLoop sdec rest
    match parseJsonFile sdec pf.content with
    | none => pure (texts, tools)
    | some p =>
      if p.isEmpty then pure (texts, tools)
      else
        let part := Json.obj p
        if (jget part "type").eqStr "text" then
          match jget part "text" with
          | .str s =>
            if pyStrip s = "" then pure (texts, tools)
            else pure (pyStrip s :: texts, tools)
          | _ => pure (texts, tools)
        else if (jget part "type").eqStr "tool" then do
          let toolMsg ← ocToolMessage p
          pure (texts, toolMsg :: tools)
        else pure (texts, tools)

/-- One sorted message entry of `read_session`: token deltas and the message
fragment (tool messages from parts first, then the text message when its
joined content is nonempty). `none` models a raise: `AttributeError` from
`.get` on a truthy non-dict `time`/`tokens`/`state`, or
`ValueError`/`TypeError` from `int()` on a truthy non-numeric token value —
none of these is caught in the source. -/
def ocEntryOf (sdec : String → Option Json) (root : OCRoot)
    (msg : List (String × Json)) : Option (Int × Int × List ViewerMessage) := do
  let m := Json.obj msg
  let role := pyStr (Json.pyOr (jget m "role") (.str "assistant"))
  let createdv ← dictGet (Json.pyOr (jget m "time") (.obj [])) "created"
  let timestamp := parse_timestamp createdv
  let tokens := Json.pyOr (jget m "tokens") (.obj [])
  let tin ← dictGet tokens "input"
  let dIn ← pyInt (Json.pyOr tin (.num 0))
  let toutv ← dictGet tokens "output"
  let dOut1 ← pyInt (Json.pyOr toutv (.num 0))
  let treas ← dictGet tokens "reasoning"
  let dOut2 ← pyInt (Json.pyOr treas (.num 0))
  let partsKey := pyStr (Json.pyOr (jget m "id") (.str ""))
  let (texts, tools) ←
    match lookupDir root.partDirs partsKey with
    | none => some (([] : List String), ([] : List ViewerMessage))
    | some partFiles => ocPartsLoop sdec partFiles
  let content := pyStrip (String.intercalate "\n" texts)
  let textMsg : List ViewerMessage :=
    if content = "" then []
    else [{ role := role, content := some content, timestamp := timestamp }]
  pure (dIn, dOut1 + dOut2, tools ++ textMsg)

/-- The entry loop of `read_session` over the sorted message entries; a raise
in any entry aborts the whole call. -/
def ocEntriesLoop (sdec : String → Option Json) (root : OCRoot) :
    List (List (String × Json)) → Option (Int × Int × List ViewerMessage)
  | [] => some (0, 0, [])
  | msg :: rest => do
    let (dIn, dOut, frag) ← ocEntryOf sdec root msg
    let (rIn, rOut, rMsgs) ← ocEntriesLoop sdec root rest
    pure (dIn + rIn, dOut + rOut, frag ++ rMsgs)

/-- The parsed-and-keyed message entries of one `message/{id}/` directory:
`if not msg: continue` skips unparseable and empty message files, but a
truthy message whose `created_ms` computation raises aborts the whole call
(`none`). -/
def ocMessageEntries (sdec : String → Option Json) :
    List OCFile → Option (List (Int × List (String × Json)))
  | [] => some []
  | mf :: rest =>
    match parseJsonFile sdec mf.content with
    | none => ocMessageEntries sdec rest
    | some m =>
      if m.isEmpty then ocMessageEntries sdec rest
      else
        match ocCreatedMs m with
        | none => none
        | some key => (ocMessageEntries sdec rest).map (fun l => (key, m) :: l)

/-- `read_session` (opencode). The outer `Option` is the exception level:
`none` means an uncaught `AttributeError`/`ValueError`/`TypeError` escapes
the call. `some none` is Python's `return None` — exactly when the session
file is missing, unparseable, a non-dict, or an empty dict. A missing
`message/{resolved_id}/` directory still yields a session with no
messages. -/
def ocReadSession (sdec : String → Option Json) (root : OCRoot) (f : OCFile)
    (sid : Option String) : Option (Option ViewerSession) :=
  match parseJsonFile sdec f.content with
  | none => some none
  | some fields =>
    if fields.isEmpty then some none
    else
      let payload := Json.obj fields
      let resolvedId := ocResolvedId payload sid f.stem
      let cwd := jget payload "directory"
      let meta := Json.obj [("version", jget payload "version")]
      match lookupDir root.messageDirs resolvedId with
      | none =>
        some (some { session_id := resolvedId, cwd := cwd, messages := [],
                     meta := meta })
      | some msgFiles => do
        let entries ← ocMessageEntries sdec msgFiles
        let sorted := ocSortEntries entries
        let (totalIn, totalOut, messages) ←
          ocEntriesLoop sdec root (sorted.map (fun e => e.2))
        pure (some { session_id := resolvedId, cwd := cwd, messages := messages,
                     total_input_tokens := totalIn,
                     total_output_tokens := totalOut, meta := meta })

/-- `find_session_path` (opencode) file loop: a file matches by stem, else by
a truthy payload whose `id` field equals the session id; there is no
substring fallback. -/
def ocFindLoop (sdec : String → Option Json) (sid : String) :
    List OCFile → Option OCFile
  | [] => none
  | f :: rest =>
    if f.stem = sid then some f
    else
      match parseJsonFile sdec f.content with
      | some d =>
        if !d.isEmpty && (jget (.obj d) "id").eqStr sid then some f
        else ocFindLoop sdec sid rest
      | none => ocFindLoop sdec sid rest

/-- `find_session_path` (opencode) across resolved roots. -/
def ocFindSessionPath (sdec : String → Option Json) (roots : List OCRoot)
    (sid : String) : Option OCFile :=
  match roots with
  | [] => none
  | r :: rest =>
    match ocFindLoop sdec sid r.sessionFiles with
    | some f => some f
    | none => ocFindSessionPath sdec rest sid

/-- The opencode summary condition:
`msg.role in {"user","assistant"} and (msg.content or "").strip()`. -/
def ocSummaryPick (m : ViewerMessage) : Option String :=
  let c := pyStrip (m.content.getD "")
  if (m.role == "user" || m.role == "assistant") && c != "" then some c else none

/-- The per-file body of `iter_sessions` (opencode): truthy payload, run id
from the `id` field or file stem, `start_time` parsed from the payload's
`createdAt`/`created_at`, window filter, then a full `read_session`. The
outer `Option` is the exception level: `none` propagates a raise out of the
enumeration; `some none` skips the file. -/
def ocRecordOfFile (sdec : String → Option Json) (root : OCRoot)
    (ws we : Option Int) (f : OCFile) : Option (Option SessionRecord) :=
  match parseJsonFile sdec f.content with
  | none => some none
  | some fields =>
    if fields.isEmpty then some none
    else
      let payload := Json.obj fields
      let runId := pyStr (Json.pyOr (jget payload "id") (.str f.stem))
      let startDt := parse_timestamp
        (Json.pyOr (jget payload "createdAt") (jget payload "created_at"))
      if in_window startDt ws we then
        match ocReadSession sdec root f (some runId) with
        | none => none
        | some none => some none
        | some (some session) =>
          let repoS := pyStr (Json.pyOr (jget payload "directory") (.str ""))
          some (some
            { run_id := runId, agent_type := "opencode",
              session_path := root.path ++ "/session/" ++ f.stem ++ ".json",
              start_time := startDt,
              message_count := (session.messages.filter (fun m =>
                m.role == "user" || m.role == "assistant")).length,
              tool_call_count :=
                (session.messages.filter (fun m => m.role == "tool")).length,
              summaries := summariesLoop ocSummaryPick [] session.messages,
              repo_name := if repoS = "" then none else some repoS,
              total_tokens :=
                some (session.total_input_tokens + session.total_output_tokens) })
      else some none

/-- The session-file loop of `iter_sessions` (opencode) over one root; a
raise in any file aborts the enumeration (`none`). -/
def ocFilesLoop (sdec : String → Option Json) (root : OCRoot)
    (ws we : Option Int) : List OCFile → Option (List SessionRecord)
  | [] => some []
  | f :: rest =>
    match ocRecordOfFile sdec root ws we f with
    | none => none
    | some none => ocFilesLoop sdec root ws we rest
    | some (some r) => (ocFilesLoop sdec root ws we rest).map (fun l => r :: l)

/-- `iter_sessions` (opencode): scan every session file of every resolved
storage root; note there is no known-ids parameter in the source. An
unresolvable or missing root is the empty root list. `none` models an
uncaught exception escaping the enumeration. -/
def ocIterSessions (sdec : String → Option Json) (roots : List OCRoot)
    (ws we : Option Int) : Option (List SessionRecord) :=
  match roots with
  | [] => some []
  | root :: rest => do
    let recs ← ocFilesLoop sdec root ws we root.sessionFiles
    let more ← ocIterSessions sdec rest ws we
    pure (recs ++ more)

/-! ## Concrete artifacts for witnesses and counterexamples

`toyDec` is a table decoder: a finite, JSON-faithful fragment of `json.loads`
covering exactly the documents used by the concrete stores below. -/

def rawDouble : String := "\"\x7b\\\"role\\\": \\\"user\\\"\x7d\""

def innerDouble : String := "\x7b\"role\": \"user\"\x7d"

def docBA : String :=
  "\x7b\"messages\": [\x7b\"role\": \"user\", \"text\": \"b\", \"timestamp\": 200\x7d, \x7b\"role\": \"user\", \"text\": \"a\", \"timestamp\": 100\x7d]\x7d"

def jsonBA : Json :=
  .obj [("messages", .arr [
    .obj [("role", .str "user"), ("text", .str "b"), ("timestamp", .num 200)],
    .obj [("role", .str "user"), ("text", .str "a"), ("timestamp", .num 100)]])]

def docFix : String :=
  "\x7b\"messages\": [\x7b\"role\": \"user\", \"content\": \"fix bug\"\x7d, \x7b\"role\": \"assistant\", \"content\": \"fixed\"\x7d, \x7b\"role\": \"tool\", \"tool\": \"grep\"\x7d]\x7d"

def jsonFix : Json :=
  .obj [("messages", .arr [
    .obj [("role", .str "user"), ("content", .str "fix bug")],
    .obj [("role", .str "assistant"), ("content", .str "fixed")],
    .obj [("role", .str "tool"), ("tool", .str "grep")]])]

def docS3 : String := "\x7b\"id\": \"s3\"\x7d"

def docM3 : String :=
  "\x7b\"id\": \"m3\", \"role\": \"user\", \"time\": \x7b\"created\": 5000000000000\x7d\x7d"

def docP3 : String := "\x7b\"type\": \"text\", \"text\": \"hello\"\x7d"

def docS1 : String := "\x7b\"id\": \"s1\"\x7d"

def docS2 : String := "\x7b\"id\": \"s2\"\x7d"

def docM2x : String := "\x7b\"time\": \"x\"\x7d"

def toyDec (s : String) : Option Json :=
  if s = "notjson" then none
  else if s = rawDouble then some (.str innerDouble)
  else if s = innerDouble then some (.obj [("role", .str "user")])
  else if s = docBA then some jsonBA
  else if s = docFix then some jsonFix
  else if s = docS3 then some (.obj [("id", .str "s3")])
  else if s = docM3 then
    some (.obj [("id", .str "m3"), ("role", .str "user"),
                ("time", .obj [("created", .num 5000000000000)])])
  else if s = docP3 then some (.obj [("type", .str "text"), ("text", .str "hello")])
  else if s = docS1 then some (.obj [("id", .str "s1")])
  else if s = docS2 then some (.obj [("id", .str "s2")])
  else if s = docM2x then some (.obj [("time", .str "x")])
  else if s = "\x7b\x7d" then some (.obj [])
  else none

/-- A DB whose only session row has an unparseable value. -/
def dbBadValue : CursorDB :=
  { path := "bad.vscdb", rows := [("composerData:s4", "notjson")] }

/-- A DB whose only session row's payload lists its messages in
anti-chronological storage order. -/
def dbOutOfOrder : CursorDB :=
  { path := "order.vscdb", rows := [("composerData:s7", docBA)] }

/-- A DB holding the spec's example session. -/
def dbExample : CursorDB :=
  { path := "example.vscdb", rows := [("composerData:s8", docFix)] }

/-- A DB whose only key contains `abc` strictly inside a longer id. -/
def dbSubstringOnly : CursorDB :=
  { path := "first.vscdb", rows := [("composerData:xxabcyy", "\x7b\x7d")] }

/-- A DB holding the exact key for session `abc`. -/
def dbExact : CursorDB :=
  { path := "second.vscdb", rows := [("composerData:abc", "\x7b\x7d")] }

/-- An OpenCode root with one session whose message has a derivable timestamp
while the session payload has no `createdAt`. -/
def rootS3 : OCRoot :=
  { path := "oc3", sessionFiles := [{ stem := "s3", content := docS3 }],
    messageDirs := [("s3", [{ stem := "m3", content := docM3 }])],
    partDirs := [("m3", [{ stem := "p3", content := docP3 }])] }

/-- An OpenCode root with one valid session and no message directories. -/
def rootS1 : OCRoot :=
  { path := "oc1", sessionFiles := [{ stem := "s1", content := docS1 }],
    messageDirs := [], partDirs := [] }

/-- An OpenCode root with one valid session whose one message file is valid
JSON (a nonempty dict) but carries a truthy non-dict `time` field — the
C2 failing input on which the real adapter raises `AttributeError`. -/
def rootRaise : OCRoot :=
  { path := "oc2", sessionFiles := [{ stem := "s2", content := docS2 }],
    messageDirs := [("s2", [{ stem := "m2", content := docM2x }])],
    partDirs := [] }

/-- A cursor conversation row that `iter_sessions` indexes: its key yields a
nonempty session id and its value double-decodes to a dict. -/
def cursorValidRow (sdec : String → Option Json) (kv : String × String) : Bool :=
  match extractSessionId kv.1 with
  | none => false
  | some rid =>
    rid != "" &&
    (match parseJsonValue sdec kv.2 with
     | some (.obj _) => true
     | _ => false)

/-- The record `iter_sessions` (cursor) builds from `dbExample`'s row. -/
def recS8 : SessionRecord :=
  { run_id := "s8", agent_type := "cursor", session_path := "example.vscdb",
    start_time := none, message_count := 2, tool_call_count := 1,
    summaries := ["fix bug", "fixed",
      "\x7b\x27role\x27: \x27tool\x27, \x27tool\x27: \x27grep\x27\x7d"] }

/-! ## Helper lemmas -/

theorem length_filterMap_eq_length_filter {α β : Type} (g : α → Option β) :
    ∀ l : List α, (l.filterMap g).length = (l.filter (fun x => (g x).isSome)).length := by
  intro l
  induction l with
  | nil => rfl
  | cons x rest ih =>
    cases hx : g x with
    | none => simp [List.filterMap_cons, List.filter_cons, hx, ih]
    | some b => simp [List.filterMap_cons, List.filter_cons, hx, ih]

theorem pyTake_length_le (n : Nat) (s : String) : (pyTake n s).length ≤ n := by
  show (s.data.take n).length ≤ n
  rw [List.length_take]
  exact Nat.min_le_left n s.data.length

theorem summariesLoop_length_le {α : Type} (pick : α → Option String) :
    ∀ (l : List α) (acc : List String), acc.length < 5 →
      (summariesLoop pick acc l).length ≤ 5 := by
  intro l
  induction l with
  | nil => intro acc h; exact Nat.le_of_lt (Nat.lt_of_lt_of_le h (by omega))
  | cons x rest ih =>
    intro acc h
    rw [summariesLoop]
    cases hp : pick x with
    | none =>
      simp only [hp]
      split
      · omega
      · exact ih acc h
    | some c =>
      simp only [hp]
      split
      · next hlen =>
        have : (acc ++ [pyTake 140 c]).length = acc.length + 1 := by simp
        omega
      · next hlen => exact ih _ (by omega)

theorem summariesLoop_mem_length {α : Type} (pick : α → Option String) :
    ∀ (l : List α) (acc : List String), (∀ s ∈ acc, s.length ≤ 140) →
      ∀ s ∈ summariesLoop pick acc l, s.length ≤ 140 := by
  intro l
  induction l with
  | nil => intro acc h; exact h
  | cons x rest ih =>
    intro acc h
    have hstep : ∀ s ∈ (match pick x with
        | some c => acc ++ [pyTake 140 c]
        | none => acc), s.length ≤ 140 := by
      cases hp : pick x with
      | none => simpa using h
      | some c =>
        simp only
        intro s hs
        rcases List.mem_append.mp hs with h1 | h2
        · exact h s h1
        · rcases List.mem_singleton.mp h2 with rfl
          exact pyTake_length_le 140 c
    rw [summariesLoop]
    split
    · exact hstep
    · exact ih _ hstep

theorem cursorRecordOfRow_shape {sdec : String → Option Json} {ws we : Option Int}
    {dbPath rid raw : String} {r : SessionRecord}
    (h : cursorRecordOfRow sdec ws we dbPath rid raw = some r) :
    ∃ fields, parseJsonValue sdec raw = some (.obj fields) ∧
      r = { run_id := rid, agent_type := "cursor", session_path := dbPath,
            start_time := ((parseMessages (.obj fields)).filterMap (fun m => m.2.2)).min?,
            message_count := ((parseMessages (.obj fields)).filter
              (fun m => m.1 == "user" || m.1 == "assistant")).length,
            tool_call_count :=
              ((parseMessages (.obj fields)).filter (fun m => m.1 == "tool")).length,
            summaries := summariesLoop cursorSummaryPick [] (parseMessages (.obj fields)) } := by
  unfold cursorRecordOfRow at h
  split at h
  · next v fields heq =>
    refine ⟨fields, heq, ?_⟩
    dsimp only at h
    split at h
    · cases h; rfl
    · cases h
  · cases h

theorem ocRecordOfFile_shape {sdec : String → Option Json} {root : OCRoot}
    {ws we : Option Int} {f : OCFile} {r : SessionRecord}
    (h : ocRecordOfFile sdec root ws we f = some (some r)) :
    ∃ fields session, parseJsonFile sdec f.content = some fields ∧ fields ≠ [] ∧
      ocReadSession sdec root f
        (some (pyStr (Json.pyOr (jget (.obj fields) "id") (.str f.stem)))) =
          some (some session) ∧
      r = { run_id := pyStr (Json.pyOr (jget (.obj fields) "id") (.str f.stem)),
            agent_type := "opencode",
            session_path := root.path ++ "/session/" ++ f.stem ++ ".json",
            start_time := parse_timestamp (Json.pyOr (jget (.obj fields) "createdAt")
              (jget (.obj fields) "created_at")),
            message_count := (session.messages.filter (fun m =>
              m.role == "user" || m.role == "assistant")).length,
            tool_call_count :=
              (session.messages.filter (fun m => m.role == "tool")).length,
            summaries := summariesLoop ocSummaryPick [] session.messages,
            repo_name :=
              if pyStr (Json.pyOr (jget (.obj fields) "directory") (.str "")) = "" then none
              else some (pyStr (Json.pyOr (jget (.obj fields) "directory") (.str ""))),
            total_tokens :=
              some (session.total_input_tokens + session.total_output_tokens) } := by
  unfold ocRecordOfFile at h
  split at h
  · simp at h
  · next fields heq =>
    split at h
    · simp at h
    · next hne =>
      dsimp only at h
      split at h
      · split at h
        · simp at h
        · simp at h
        · next session hread =>
          refine ⟨fields, session, heq, ?_, hread, ?_⟩
          · intro hfields
            rw [hfields] at hne
            simp at hne
          · cases h; rfl
      · simp at h

/-! ## Claim theorems -/

/-- C5: a stored value that is a JSON string whose decoded result is itself a
JSON string encoding an object is parsed twice by `_parse_json_value`, which
returns the inner object rather than the plain text. -/
theorem cursor_parse_json_value_extracts_double_encoded_object :
    ∀ (sdec : String → Option Json) (raw s : String) (fields : List (String × Json)),
      sdec raw = some (.str s) → sdec s = some (.obj fields) →
      parseJsonValue sdec raw = some (.obj fields) := by
  intro sdec raw s fields h1 h2
  simp [parseJsonValue, h1, h2]

/-- C5 witness: the double-encoded document `"{\"role\": \"user\"}"` decodes
to the inner object. -/
theorem cursor_parse_json_value_double_encoded_witness :
    parseJsonValue toyDec rawDouble = some (.obj [("role", Json.str "user")]) :=
  cursor_parse_json_value_extracts_double_encoded_object toyDec rawDouble innerDouble
    [("role", Json.str "user")] rfl rfl

/-- C10: an OpenCode session file that parses to a nonempty object whose
resolved session id has no `message/` directory yields a non-null
`ViewerSession` with the resolved id, the payload's `directory` as `cwd`, and
no messages. -/
theorem opencode_read_session_without_message_dir :
    ∀ (sdec : String → Option Json) (root : OCRoot) (f : OCFile)
      (sid : Option String) (fields : List (String × Json)),
      parseJsonFile sdec f.content = some fields → fields ≠ [] →
      lookupDir root.messageDirs (ocResolvedId (.obj fields) sid f.stem) = none →
      ocReadSession sdec root f sid =
        some (some { session_id := ocResolvedId (.obj fields) sid f.stem,
                     cwd := jget (.obj fields) "directory", messages := [],
                     meta := .obj [("version", jget (.obj fields) "version")] }) := by
  intro sdec root f sid fields hp hne hdir
  have hE : fields.isEmpty = false := by
    cases fields with
    | nil => exact absurd rfl hne
    | cons a l => rfl
  unfold ocReadSession
  rw [hp]
  simp only [hE, Bool.false_eq_true, if_false, hdir]

/-- C10 witness: the `rootS1` store has no message directory for session
`s1`, and `read_session` still returns the empty-transcript session. -/
theorem opencode_read_session_without_message_dir_witness :
    ocReadSession toyDec rootS1 { stem := "s1", content := docS1 } none =
      some (some { session_id := "s1", cwd := Json.null, messages := [],
                   meta := Json.obj [("version", Json.null)] }) :=
  opencode_read_session_without_message_dir toyDec rootS1 { stem := "s1", content := docS1 }
    none [("id", Json.str "s1")] rfl (List.cons_ne_nil _ _) rfl

/-- C1 counterexample: the OpenCode `iter_sessions` takes no known-ids
parameter at all, so with the known-ids set `{"s1"}` the session `s1` is
still enumerated. -/
theorem opencode_iter_sessions_returns_known_id_cex :
    (ocIterSessions toyDec [rootS1] none none).map (List.map (fun r => r.run_id)) =
      some ["s1"] ∧
    "s1" ∈ ["s1"] := ⟨rfl, by decide⟩

/-- C3 counterexample: an OpenCode session whose payload has no
`createdAt`/`created_at` gets `start_time = null` even though its one message
carries a derivable timestamp. -/
theorem opencode_start_time_ignores_message_timestamps_cex :
    (ocIterSessions toyDec [rootS3] none none).map (List.map (fun r => r.start_time)) =
      some [none] ∧
    (ocReadSession toyDec rootS3 { stem := "s3", content := docS3 } (some "s3")).map
      (Option.map (fun s => s.messages.map (fun m => m.timestamp))) =
        some (some [some 5000000000000]) :=
  ⟨rfl, rfl⟩

/-- C4 counterexample: the Cursor row `composerData:s4` is located, but its
value is invalid JSON, and `read_session` returns null rather than a
`ViewerSession`. -/
theorem cursor_read_session_none_despite_row_located_cex :
    cursorFindRow dbBadValue.rows "s4" = some ("composerData:s4", "notjson") ∧
    cursorReadSession toyDec (some dbBadValue) (some "s4") = none := ⟨rfl, rfl⟩

/-- C6 counterexample: with two DB files, the first contains only a substring
hit for `abc` while the second contains the exact key, yet `find_session_path`
returns the first — a path found only via the substring fallback. -/
theorem cursor_find_session_path_shadowed_exact_match_cex :
    cursorFindSessionPath (some [dbSubstringOnly, dbExact]) "abc" = some "first.vscdb" ∧
    dbSubstringOnly.rows.all
      (fun kv => !(kv.1 == "composerData:abc") && !(kv.1 == "bubbleId:abc")) = true ∧
    dbExact.rows.any (fun kv => kv.1 == "composerData:abc") = true :=
  ⟨rfl, rfl, rfl⟩

/-- C7 counterexample: a Cursor payload stores two messages with derivable,
strictly decreasing timestamps; `read_session` returns them in storage order,
not ascending by timestamp. -/
theorem cursor_read_session_not_sorted_by_timestamp_cex :
    (cursorReadSession toyDec (some dbOutOfOrder) (some "s7")).map
      (fun s => s.messages.map (fun m => m.timestamp)) = some [some 200000, some 100000] ∧
    (100000 : Int) < 200000 := ⟨rfl, by decide⟩

theorem jsonSize_lookupField :
    ∀ {fields : List (String × Json)} {key : String} {v : Json},
      lookupField fields key = some v → jsonSize v ≤ jsonSizeFields fields
  | [], _, _, h => by simp [lookupField] at h
  | (k, w) :: rest, key, v, h => by
    rw [lookupField] at h
    split at h
    · cases h
      rw [jsonSizeFields]
      omega
    · have := jsonSize_lookupField h
      rw [jsonSizeFields]
      omega

theorem jsonSize_firstPresent {fields : List (String × Json)} :
    ∀ {keys : List String} {v : Json},
      firstPresent fields keys = some v → jsonSize v ≤ jsonSizeFields fields := by
  intro keys
  induction keys with
  | nil => intro v h; simp [firstPresent] at h
  | cons k ks ih =>
    intro v h
    rw [firstPresent] at h
    revert h
    cases hk : lookupField fields k with
    | some w =>
      intro h
      cases h
      exact jsonSize_lookupField hk
    | none => intro h; exact ih h

theorem jsonSize_mem_list :
    ∀ {elems : List Json} {j : Json}, j ∈ elems → jsonSize j ≤ jsonSizeList elems := by
  intro elems
  induction elems with
  | nil => intro j h; cases h
  | cons e rest ih =>
    intro j h
    rw [jsonSizeList]
    rcases List.mem_cons.mp h with rfl | hmem
    · omega
    · have := ih hmem
      omega

/-- Any budget at least `jsonSize j` computes the same text: the fuelled
`_extract_text` never exhausts its budget on the values it is actually
applied to. -/
theorem extractTextFuel_congr :
    ∀ (fuel : Nat) (j : Json), jsonSize j ≤ fuel →
      extractTextFuel fuel j = extractText j := by
  intro fuel
  induction fuel using Nat.strong_induction_on with
  | _ fuel ih =>
    intro j hj
    match j with
    | .null => cases fuel <;> rfl
    | .bool b => cases fuel <;> rfl
    | .num n => cases fuel <;> rfl
    | .str s => cases fuel <;> rfl
    | .obj fields =>
      have hsz : jsonSize (Json.obj fields) = jsonSizeFields fields + 1 := rfl
      match fuel, hj with
      | k + 1, hj =>
        show (match firstPresent fields textKeys with
              | some v => extractTextFuel k v
              | none => pyStr (.obj fields)) = extractText (Json.obj fields)
        have hunfold : extractText (Json.obj fields) =
            (match firstPresent fields textKeys with
             | some v => extractTextFuel (jsonSizeFields fields) v
             | none => pyStr (.obj fields)) := rfl
        rw [hunfold]
        cases hfp : firstPresent fields textKeys with
        | none => rfl
        | some v =>
          have hv : jsonSize v ≤ jsonSizeFields fields := jsonSize_firstPresent hfp
          rw [hsz] at hj
          dsimp only
          rw [ih k (by omega) v (by omega),
              ih (jsonSizeFields fields) (by omega) v (by omega)]
    | .arr elems =>
      have hsz : jsonSize (Json.arr elems) = jsonSizeList elems + 1 := rfl
      match fuel, hj with
      | k + 1, hj =>
        show String.intercalate "\n"
              ((elems.map (extractTextFuel k)).filter (fun p => p ≠ "")) =
            extractText (Json.arr elems)
        have hunfold : extractText (Json.arr elems) =
            String.intercalate "\n"
              ((elems.map (extractTextFuel (jsonSizeList elems))).filter
                (fun p => p ≠ "")) := rfl
        rw [hsz] at hj
        rw [hunfold]
        have hmap : elems.map (extractTextFuel k) =
            elems.map (extractTextFuel (jsonSizeList elems)) := by
          apply List.map_congr_left
          intro a ha
          have hA : jsonSize a ≤ jsonSizeList elems := jsonSize_mem_list ha
          rw [ih k (by omega) a (by omega),
              ih (jsonSizeList elems) (by omega) a (by omega)]
        rw [hmap]

theorem cursorRecordOfRow_unbounded_isSome (sdec : String → Option Json)
    (p rid raw : String) :
    (cursorRecordOfRow sdec none none p rid raw).isSome =
      (match parseJsonValue sdec raw with
       | some (.obj _) => true
       | _ => false) := by
  unfold cursorRecordOfRow
  cases hp : parseJsonValue sdec raw with
  | none => rfl
  | some v => cases v <;> rfl

theorem cursorRowsLoop_length_unbounded (sdec : String → Option Json) (p : String) :
    ∀ rows, (cursorRowsLoop sdec none none [] p rows).length =
      (rows.filter (cursorValidRow sdec)).length := by
  intro rows
  induction rows with
  | nil => rfl
  | cons kv rest ih =>
    obtain ⟨k, raw⟩ := kv
    rw [cursorRowsLoop]
    cases hx : extractSessionId k with
    | none =>
      simp only [List.filter_cons, cursorValidRow, hx]
      exact ih
    | some rid =>
      by_cases hempty : rid = ""
      · subst hempty
        simp only [List.filter_cons, cursorValidRow, hx, if_pos rfl]
        simpa using ih
      · simp only [if_neg hempty]
        have hknown : ([] : List String).contains rid = false := rfl
        simp only [hknown, Bool.false_eq_true, if_false]
        have hiso := cursorRecordOfRow_unbounded_isSome sdec p rid raw
        cases hr : cursorRecordOfRow sdec none none p rid raw with
        | none =>
          rw [hr] at hiso
          have hm : (match parseJsonValue sdec raw with
              | some (.obj _) => true
              | _ => false) = false := by simpa using hiso.symm
          simp only [List.filter_cons, cursorValidRow, hx, hm, Bool.and_false,
            Bool.false_eq_true, if_false]
          exact ih
        | some record =>
          rw [hr] at hiso
          have hm : (match parseJsonValue sdec raw with
              | some (.obj _) => true
              | _ => false) = true := by simpa using hiso.symm
          have hb : (rid != "") = true := by simp [bne_iff_ne, hempty]
          simp only [List.filter_cons, cursorValidRow, hx, hm, hb, Bool.and_true,
            if_true, List.length_cons]
          omega

theorem ocReadSession_not_null_of {sdec : String → Option Json} {root : OCRoot}
    {f : OCFile} {sid : Option String} {fields : List (String × Json)}
    (hp : parseJsonFile sdec f.content = some fields)
    (he : fields.isEmpty = false) :
    ocReadSession sdec root f sid ≠ some none := by
  unfold ocReadSession
  rw [hp]
  simp only [he, Bool.false_eq_true, if_false]
  cases hdir : lookupDir root.messageDirs (ocResolvedId (Json.obj fields) sid f.stem) with
  | none => simp
  | some msgFiles =>
    cases hme : ocMessageEntries sdec msgFiles with
    | none => simp [hme, Option.bind]
    | some entries =>
      cases hloop : ocEntriesLoop sdec root ((ocSortEntries entries).map (fun e => e.2)) with
      | none => simp [hme, hloop, Option.bind]
      | some triple =>
        obtain ⟨a, b, c⟩ := triple
        simp [hme, hloop, Option.bind]

/-- C2: the never-raise guarantee fails in the OpenCode adapter. The Cursor
side of the claim holds (a missing root yields `[]`, and with an unbounded
window and no known ids exactly the valid rows are indexed), and an OpenCode
store with no resolvable roots yields `[]`; but `rootRaise` — one valid
session whose one message file is valid JSON (the nonempty dict
`{"time": "x"}`) — makes `iter_sessions` raise (`none`) instead of returning
its one valid session. -/
theorem opencode_iter_sessions_raises_on_malformed_message :
    (∀ (sdec : String → Option Json) (ws we : Option Int) (known : List String),
       cursorIterSessions sdec none ws we known = []) ∧
    (∀ (sdec : String → Option Json) (dbs : List CursorDB),
       (cursorIterSessions sdec (some dbs) none none []).length =
         ((dbs.flatMap cursorRows).filter (cursorValidRow sdec)).length) ∧
    (∀ (sdec : String → Option Json) (ws we : Option Int),
       ocIterSessions sdec [] ws we = some []) ∧
    (parseJsonFile toyDec docM2x = some [("time", Json.str "x")] ∧
     ocIterSessions toyDec [rootRaise] none none = none) := by
  refine ⟨fun _ _ _ _ => rfl, ?_, fun _ _ _ => rfl, rfl, rfl⟩
  intro sdec dbs
  induction dbs with
  | nil => rfl
  | cons db rest ih =>
    simp only [cursorIterSessions, List.flatMap_cons, List.length_append,
      List.filter_append] at ih ⊢
    rw [cursorRowsLoop_length_unbounded]
    omega

theorem mem_cursorRowsLoop {sdec : String → Option Json} {ws we : Option Int}
    {known : List String} {p : String} :
    ∀ {rows : List (String × String)} {r : SessionRecord},
      r ∈ cursorRowsLoop sdec ws we known p rows →
      ∃ rid raw, cursorRecordOfRow sdec ws we p rid raw = some r := by
  intro rows
  induction rows with
  | nil => intro r h; simp [cursorRowsLoop] at h
  | cons kv rest ih =>
    intro r h
    rw [cursorRowsLoop] at h
    revert h
    cases hx : extractSessionId kv.1 with
    | none => intro h; exact ih h
    | some rid =>
      by_cases hempty : rid = ""
      · simp only [if_pos hempty]
        intro h
        exact ih h
      · simp only [if_neg hempty]
        cases hk : known.contains rid with
        | true =>
          simp only [if_pos rfl]
          intro h
          exact ih h
        | false =>
          simp only [Bool.false_eq_true, if_false]
          cases hr : cursorRecordOfRow sdec ws we p rid kv.2 with
          | none => intro h; exact ih h
          | some record =>
            intro h
            rcases List.mem_cons.mp h with rfl | hmem
            · exact ⟨rid, kv.2, hr⟩
            · exact ih hmem

theorem mem_ocFilesLoop {sdec : String → Option Json} {root : OCRoot}
    {ws we : Option Int} :
    ∀ {files : List OCFile} {recs : List SessionRecord} {r : SessionRecord},
      ocFilesLoop sdec root ws we files = some recs → r ∈ recs →
      ∃ f, ocRecordOfFile sdec root ws we f = some (some r) := by
  intro files
  induction files with
  | nil =>
    intro recs r h hm
    rw [ocFilesLoop] at h
    obtain rfl : recs = [] := (Option.some.inj h).symm
    cases hm
  | cons f rest ih =>
    intro recs r h hm
    rw [ocFilesLoop] at h
    revert h
    cases hrec : ocRecordOfFile sdec root ws we f with
    | none => intro h; simp at h
    | some o =>
      cases o with
      | none => intro h; exact ih h hm
      | some record =>
        intro h
        rcases Option.map_eq_some'.mp h with ⟨rest2, hrest, hcons⟩
        subst hcons
        rcases List.mem_cons.mp hm with rfl | hmem
        · exact ⟨f, hrec⟩
        · exact ih hrest hmem

theorem mem_ocIterSessions {sdec : String → Option Json} {ws we : Option Int} :
    ∀ {roots : List OCRoot} {recs : List SessionRecord} {r : SessionRecord},
      ocIterSessions sdec roots ws we = some recs → r ∈ recs →
      ∃ root f, ocRecordOfFile sdec root ws we f = some (some r) := by
  intro roots
  induction roots with
  | nil =>
    intro recs r h hm
    rw [ocIterSessions] at h
    obtain rfl : recs = [] := (Option.some.inj h).symm
    cases hm
  | cons root rest ih =>
    intro recs r h hm
    rw [ocIterSessions] at h
    cases h1 : ocFilesLoop sdec root ws we root.sessionFiles with
    | none => rw [h1] at h; simp [Option.bind] at h
    | some recs1 =>
      rw [h1] at h
      cases h2 : ocIterSessions sdec rest ws we with
      | none => rw [h2] at h; simp [Option.bind] at h
      | some recs2 =>
        rw [h2] at h
        obtain rfl : recs = recs1 ++ recs2 := (Option.some.inj h).symm
        rcases List.mem_append.mp hm with hmem | hmem
        · rcases mem_ocFilesLoop h1 hmem with ⟨f, hf⟩
          exact ⟨root, f, hf⟩
        · exact ih h2 hmem

/-- C9: every record either adapter enumerates carries at most five summaries
of at most 140 characters each (for OpenCode, every record of a
non-raising enumeration). -/
theorem adapters_summaries_bounded :
    ∀ (sdec : String → Option Json) (root : Option (List CursorDB))
      (roots : List OCRoot) (ws we : Option Int) (known : List String)
      (r : SessionRecord),
      (r ∈ cursorIterSessions sdec root ws we known ∨
       r ∈ (ocIterSessions sdec roots ws we).getD []) →
      r.summaries.length ≤ 5 ∧ ∀ s ∈ r.summaries, s.length ≤ 140 := by
  intro sdec root roots ws we known r hmem
  rcases hmem with hc | ho
  · cases root with
    | none => simp [cursorIterSessions] at hc
    | some dbs =>
      simp only [cursorIterSessions] at hc
      rcases List.mem_flatMap.mp hc with ⟨db, _, hrow⟩
      rcases mem_cursorRowsLoop hrow with ⟨rid, raw, hrec⟩
      rcases cursorRecordOfRow_shape hrec with ⟨fields, _, rfl⟩
      refine ⟨summariesLoop_length_le _ _ [] (by simp), ?_⟩
      exact summariesLoop_mem_length _ _ [] (by intro s hs; cases hs)
  · cases hoc : ocIterSessions sdec roots ws we with
    | none => rw [hoc] at ho; cases ho
    | some recs =>
      rw [hoc] at ho
      rcases mem_ocIterSessions hoc ho with ⟨ocroot, f, hrec⟩
      rcases ocRecordOfFile_shape hrec with ⟨fields, session, _, _, _, rfl⟩
      refine ⟨summariesLoop_length_le _ _ [] (by simp), ?_⟩
      exact summariesLoop_mem_length _ _ [] (by intro s hs; cases hs)

/-- C9 witness: the example store's record has three summaries, all within
bounds. -/
theorem adapters_summaries_bounded_witness :
    recS8.summaries.length ≤ 5 ∧ ∀ s ∈ recS8.summaries, s.length ≤ 140 :=
  adapters_summaries_bounded toyDec (some [dbExample]) [] none none [] recS8
    (Or.inl (by
      have h : cursorIterSessions toyDec (some [dbExample]) none none [] = [recS8] := rfl
      rw [h]
      exact List.mem_singleton.mpr rfl))

/-- C8: the spec's example session yields `message_count=2`,
`tool_call_count=1`; in general both adapters count exactly the
user/assistant entries and exactly the tool entries of the parsed session. -/
theorem adapters_message_and_tool_counts :
    ((cursorIterSessions toyDec (some [dbExample]) none none []).map
        (fun r => (r.message_count, r.tool_call_count)) = [(2, 1)]) ∧
    (∀ (sdec : String → Option Json) (ws we : Option Int) (p rid raw : String)
       (r : SessionRecord) (fields : List (String × Json)),
       parseJsonValue sdec raw = some (.obj fields) →
       cursorRecordOfRow sdec ws we p rid raw = some r →
       r.message_count = ((parseMessages (.obj fields)).filter
          (fun m => m.1 == "user" || m.1 == "assistant")).length ∧
       r.tool_call_count = ((parseMessages (.obj fields)).filter
          (fun m => m.1 == "tool")).length) ∧
    (∀ (sdec : String → Option Json) (root : OCRoot) (ws we : Option Int)
       (f : OCFile) (r : SessionRecord),
       ocRecordOfFile sdec root ws we f = some (some r) →
       ∃ s, ocReadSession sdec root f (some r.run_id) = some (some s) ∧
         r.message_count = (s.messages.filter
            (fun m => m.role == "user" || m.role == "assistant")).length ∧
         r.tool_call_count = (s.messages.filter (fun m => m.role == "tool")).length) := by
  refine ⟨rfl, ?_, ?_⟩
  · intro sdec ws we p rid raw r fields hp hr
    rcases cursorRecordOfRow_shape hr with ⟨fields2, hp2, rfl⟩
    obtain rfl := Json.obj.inj (Option.some.inj (hp.symm.trans hp2))
    exact ⟨rfl, rfl⟩
  · intro sdec root ws we f r hr
    rcases ocRecordOfFile_shape hr with ⟨fields, session, hp, hne, hread, rfl⟩
    exact ⟨session, hread, rfl, rfl⟩

/-- C8 witness: the cursor example record's counts instantiate the general
count characterization. -/
theorem adapters_message_and_tool_counts_witness :
    recS8.message_count = ((parseMessages jsonFix).filter
        (fun m => m.1 == "user" || m.1 == "assistant")).length ∧
    recS8.tool_call_count = ((parseMessages jsonFix).filter
        (fun m => m.1 == "tool")).length :=
  adapters_message_and_tool_counts.2.1 toyDec none none "example.vscdb" "s8" docFix
    recS8
    [("messages", Json.arr [
      Json.obj [("role", Json.str "user"), ("content", Json.str "fix bug")],
      Json.obj [("role", Json.str "assistant"), ("content", Json.str "fixed")],
      Json.obj [("role", Json.str "tool"), ("tool", Json.str "grep")]])]
    rfl rfl

/-- C3 amended: the Cursor adapter sets `start_time` to the minimum parsed
message timestamp (null when none); the OpenCode adapter instead parses the
session payload's `createdAt`/`created_at` field and ignores message
timestamps. -/
theorem adapters_start_time_derivation :
    (∀ (sdec : String → Option Json) (ws we : Option Int) (p rid raw : String)
       (r : SessionRecord) (fields : List (String × Json)),
       parseJsonValue sdec raw = some (.obj fields) →
       cursorRecordOfRow sdec ws we p rid raw = some r →
       r.start_time = ((parseMessages (.obj fields)).filterMap (fun m => m.2.2)).min?) ∧
    (∀ (sdec : String → Option Json) (root : OCRoot) (ws we : Option Int)
       (f : OCFile) (r : SessionRecord) (fields : List (String × Json)),
       parseJsonFile sdec f.content = some fields →
       ocRecordOfFile sdec root ws we f = some (some r) →
       r.start_time = parse_timestamp (Json.pyOr (jget (.obj fields) "createdAt")
         (jget (.obj fields) "created_at"))) := by
  constructor
  · intro sdec ws we p rid raw r fields hp hr
    rcases cursorRecordOfRow_shape hr with ⟨fields2, hp2, rfl⟩
    obtain rfl := Json.obj.inj (Option.some.inj (hp.symm.trans hp2))
    rfl
  · intro sdec root ws we f r fields hp hr
    rcases ocRecordOfFile_shape hr with ⟨fields2, session, hp2, hne, hread, rfl⟩
    obtain rfl := Option.some.inj (hp.symm.trans hp2)
    rfl

/-- C3 witness: the cursor example record's `start_time` instantiates the
minimum-timestamp characterization. -/
theorem adapters_start_time_derivation_witness :
    recS8.start_time = ((parseMessages jsonFix).filterMap (fun m => m.2.2)).min? :=
  adapters_start_time_derivation.1 toyDec none none "example.vscdb" "s8" docFix
    recS8
    [("messages", Json.arr [
      Json.obj [("role", Json.str "user"), ("content", Json.str "fix bug")],
      Json.obj [("role", Json.str "assistant"), ("content", Json.str "fixed")],
      Json.obj [("role", Json.str "tool"), ("tool", Json.str "grep")]])]
    rfl rfl

theorem cursorRecordOfRow_run_id {sdec : String → Option Json} {ws we : Option Int}
    {p rid raw : String} {r : SessionRecord}
    (h : cursorRecordOfRow sdec ws we p rid raw = some r) : r.run_id = rid := by
  rcases cursorRecordOfRow_shape h with ⟨fields, _, rfl⟩
  rfl

theorem cursorRowsLoop_known_filter (sdec : String → Option Json)
    (ws we : Option Int) (p : String) (known : List String) :
    ∀ rows, cursorRowsLoop sdec ws we known p rows =
      (cursorRowsLoop sdec ws we [] p rows).filter
        (fun r => !known.contains r.run_id) := by
  intro rows
  induction rows with
  | nil => rfl
  | cons kv rest ih =>
    rw [cursorRowsLoop, cursorRowsLoop]
    cases hx : extractSessionId kv.1 with
    | none => exact ih
    | some rid =>
      by_cases hempty : rid = ""
      · simp only [if_pos hempty]
        exact ih
      · simp only [if_neg hempty]
        have hknil : ([] : List String).contains rid = false := rfl
        simp only [hknil, Bool.false_eq_true, if_false]
        cases hk : known.contains rid with
        | true =>
          simp only [if_pos rfl]
          cases hr : cursorRecordOfRow sdec ws we p rid kv.2 with
          | none => exact ih
          | some record =>
            have hrid := cursorRecordOfRow_run_id hr
            simp only [List.filter_cons, hrid, hk, Bool.not_true,
              Bool.false_eq_true, if_false]
            exact ih
        | false =>
          simp only [Bool.false_eq_true, if_false]
          cases hr : cursorRecordOfRow sdec ws we p rid kv.2 with
          | none => exact ih
          | some record =>
            have hrid := cursorRecordOfRow_run_id hr
            simp only [List.filter_cons, hrid, hk, Bool.not_false, if_true]
            rw [ih]

/-- C1 amended: the Cursor adapter's `iter_sessions` excludes exactly the
known run ids and enumerates every other session unchanged; the OpenCode
adapter's `iter_sessions` has no known-ids parameter (see the
counterexample). -/
theorem cursor_iter_sessions_excludes_known_ids :
    ∀ (sdec : String → Option Json) (root : Option (List CursorDB))
      (ws we : Option Int) (known : List String),
      cursorIterSessions sdec root ws we known =
        (cursorIterSessions sdec root ws we []).filter
          (fun r => !known.contains r.run_id) := by
  intro sdec root ws we known
  cases root with
  | none => rfl
  | some dbs =>
    simp only [cursorIterSessions]
    rw [List.filter_flatMap]
    exact congrArg _ (funext (fun db =>
      cursorRowsLoop_known_filter sdec ws we db.path known (cursorRows db)))

theorem mem_insertSorted {α : Type} (key : α → Int) (x : α) :
    ∀ {l : List α} {a : α}, a ∈ insertSorted key x l → a = x ∨ a ∈ l := by
  intro l
  induction l with
  | nil =>
    intro a h
    rcases List.mem_singleton.mp h with rfl
    exact Or.inl rfl
  | cons y rest ih =>
    intro a h
    rw [insertSorted] at h
    by_cases hk : key y < key x
    · rw [if_pos hk] at h
      rcases List.mem_cons.mp h with rfl | h2
      · exact Or.inr (List.mem_cons_self _ _)
      · rcases ih h2 with rfl | h3
        · exact Or.inl rfl
        · exact Or.inr (List.mem_cons_of_mem _ h3)
    · rw [if_neg hk] at h
      rcases List.mem_cons.mp h with rfl | h2
      · exact Or.inl rfl
      · exact Or.inr h2

theorem pairwise_insertSorted {α : Type} (key : α → Int) (x : α) :
    ∀ {l : List α}, l.Pairwise (fun a b => key a ≤ key b) →
      (insertSorted key x l).Pairwise (fun a b => key a ≤ key b) := by
  intro l
  induction l with
  | nil => intro _; simp [insertSorted]
  | cons y rest ih =>
    intro h
    rcases List.pairwise_cons.mp h with ⟨hy, hrest⟩
    rw [insertSorted]
    by_cases hk : key y < key x
    · rw [if_pos hk]
      refine List.pairwise_cons.mpr ⟨?_, ih hrest⟩
      intro b hb
      rcases mem_insertSorted key x hb with rfl | hbm
      · exact Int.le_of_lt hk
      · exact hy b hbm
    · rw [if_neg hk]
      have hxy : key x ≤ key y := Int.not_lt.mp hk
      refine List.pairwise_cons.mpr ⟨?_, h⟩
      intro b hb
      rcases List.mem_cons.mp hb with rfl | hbm
      · exact hxy
      · exact le_trans hxy (hy b hbm)

theorem pairwise_stableSortByKey {α : Type} (key : α → Int) :
    ∀ l : List α, (stableSortByKey key l).Pairwise (fun a b => key a ≤ key b) := by
  intro l
  induction l with
  | nil => simp [stableSortByKey]
  | cons x rest ih => exact pairwise_insertSorted key x ih

theorem parseRecords_eq_filterMap :
    ∀ records, parseRecords records = records.filterMap parseRecord := by
  intro records
  induction records with
  | nil => rfl
  | cons r rest ih =>
    rw [parseRecords, List.filterMap_cons]
    cases parseRecord r <;> simp [ih]

/-- C7 amended: the OpenCode `read_session` sorts message entries ascending by
their created-timestamp key before emitting messages, while the Cursor
`_parse_messages` emits messages as an order-preserving traversal of the
stored records — storage order, with no sort by timestamp (see the
counterexample). -/
theorem message_order_discipline :
    (∀ entries : List (Int × List (String × Json)),
       (ocSortEntries entries).Pairwise (fun a b => a.1 ≤ b.1)) ∧
    (∀ records, parseRecords records = records.filterMap parseRecord) :=
  ⟨fun entries => pairwise_stableSortByKey (fun e => e.1) entries,
   parseRecords_eq_filterMap⟩

/-- C4 amended: `read_session` returns null when the file/row cannot be
located, when no (nonempty) session id is supplied, and also when the located
payload fails to parse — to a dict for Cursor, to a truthy (nonempty) dict
for OpenCode. Messages that fail JSON parsing are silently skipped and never
cause a null result, but an OpenCode message whose `time`/`tokens`/`state`
fields are malformed makes the call raise rather than return (see C2): on a
parsed nonempty payload the OpenCode `read_session` never returns null — it
returns a session or raises. -/
theorem adapters_read_session_null_conditions :
    (∀ (sdec : String → Option Json) (db : CursorDB) (sid : String),
       (cursorReadSession sdec (some db) (some sid)).isSome = true ↔
         sid ≠ "" ∧ db.broken = false ∧
         ∃ row fields, cursorFindRow db.rows sid = some row ∧
           parseJsonValue sdec row.2 = some (.obj fields)) ∧
    (∀ (sdec : String → Option Json) (root : OCRoot) (f : OCFile)
       (sid : Option String),
       ocReadSession sdec root f sid = some none ↔
         (parseJsonFile sdec f.content = none ∨
          parseJsonFile sdec f.content = some [])) ∧
    (∀ (sdec : String → Option Json) (mf : OCFile) (msgFiles : List OCFile),
       parseJsonFile sdec mf.content = none →
       ocMessageEntries sdec (mf :: msgFiles) = ocMessageEntries sdec msgFiles) := by
  refine ⟨?_, ?_, ?_⟩
  · intro sdec db sid
    unfold cursorReadSession
    by_cases hsid : sid = ""
    · simp [hsid]
    · simp only [if_neg hsid]
      cases hbr : db.broken with
      | true => simp [hbr, hsid]
      | false =>
        simp only [Bool.false_eq_true, if_false]
        cases hrow : cursorFindRow db.rows sid with
        | none => simp [hsid, hrow]
        | some row =>
          cases hpv : parseJsonValue sdec row.2 with
          | none => simp [hsid, hrow, hpv]
          | some v =>
            cases v <;> simp [hsid, hrow, hpv]
  · intro sdec root f sid
    cases hp : parseJsonFile sdec f.content with
    | none =>
      constructor
      · intro _; exact Or.inl rfl
      · intro _
        unfold ocReadSession
        rw [hp]
    | some fields =>
      cases he : fields.isEmpty with
      | true =>
        obtain rfl : fields = [] := List.isEmpty_iff.mp he
        constructor
        · intro _; exact Or.inr rfl
        · intro _
          unfold ocReadSession
          rw [hp]
          rfl
      | false =>
        have hne := @ocReadSession_not_null_of sdec root f sid fields hp he
        constructor
        · intro h; exact absurd h hne
        · intro h
          rcases h with h | h
          · simp at h
          · obtain rfl : fields = [] := Option.some.inj h
            simp at he
  · intro sdec mf msgFiles hp
    rw [ocMessageEntries, hp]

/-- C4 witness: the example store's located row parses, so `read_session` is
non-null there. -/
theorem adapters_read_session_null_conditions_witness :
    (cursorReadSession toyDec (some dbExample) (some "s8")).isSome = true :=
  (adapters_read_session_null_conditions.1 toyDec dbExample "s8").mpr
    ⟨by decide, rfl, ("composerData:s8", docFix),
     [("messages", Json.arr [
       Json.obj [("role", Json.str "user"), ("content", Json.str "fix bug")],
       Json.obj [("role", Json.str "assistant"), ("content", Json.str "fixed")],
       Json.obj [("role", Json.str "tool"), ("tool", Json.str "grep")]])],
     rfl, rfl⟩

theorem ocFindLoop_hit {sdec : String → Option Json} {sid : String} :
    ∀ {files : List OCFile} {f : OCFile}, ocFindLoop sdec sid files = some f →
      f.stem = sid ∨ ∃ d, parseJsonFile sdec f.content = some d ∧ d ≠ [] ∧
        (jget (.obj d) "id").eqStr sid = true := by
  intro files
  induction files with
  | nil => intro f h; simp [ocFindLoop] at h
  | cons g rest ih =>
    intro f h
    rw [ocFindLoop] at h
    revert h
    by_cases hstem : g.stem = sid
    · simp only [if_pos hstem]
      intro h
      cases h
      exact Or.inl hstem
    · simp only [if_neg hstem]
      cases hp : parseJsonFile sdec g.content with
      | none => intro h; exact ih h
      | some d =>
        by_cases hcond : (!d.isEmpty && (jget (.obj d) "id").eqStr sid) = true
        · simp only [if_pos hcond]
          intro h
          cases h
          have hcond2 := hcond
          simp only [Bool.and_eq_true] at hcond2
          rcases hcond2 with ⟨hd, hid⟩
          refine Or.inr ⟨d, hp, ?_, hid⟩
          intro hnil
          rw [hnil] at hd
          simp at hd
        · simp only [if_neg hcond]
          intro h
          exact ih h

/-- C6 amended: within a single Cursor DB file an exact
`composerData:`/`bubbleId:` key match always wins (the substring fallback is
only consulted when no exact key exists in that file), but across multiple DB
files an earlier file's substring hit can shadow a later file's exact match
(see the counterexample); the OpenCode adapter has no substring fallback — a
returned file matches by stem or by exact `id` field. -/
theorem find_session_path_match_discipline :
    (∀ (db : CursorDB) (sid : String), pyStrip sid ≠ "" → db.broken = false →
       (db.rows.any (fun kv => kv.1 == "composerData:" ++ pyStrip sid) ||
        db.rows.any (fun kv => kv.1 == "bubbleId:" ++ pyStrip sid)) = true →
       cursorFindSessionPath (some [db]) sid = some db.path) ∧
    (∀ (sdec : String → Option Json) (roots : List OCRoot) (sid : String)
       (f : OCFile), ocFindSessionPath sdec roots sid = some f →
       f.stem = sid ∨ ∃ d, parseJsonFile sdec f.content = some d ∧ d ≠ [] ∧
         (jget (.obj d) "id").eqStr sid = true) := by
  constructor
  · intro db sid hne hbroken hany
    have hhit : cursorHitInDB db (pyStrip sid) = true := by
      unfold cursorHitInDB
      rw [hbroken]
      simp only [Bool.false_eq_true, if_false]
      by_cases h1 : db.rows.any (fun kv => kv.1 == "composerData:" ++ pyStrip sid) = true
      · simp [h1]
      · have h2 : db.rows.any (fun kv => kv.1 == "bubbleId:" ++ pyStrip sid) = true := by
          have hany2 := hany
          simp only [Bool.or_eq_true] at hany2
          rcases hany2 with h | h
          · exact absurd h h1
          · exact h
        simp [h1, h2]
    unfold cursorFindSessionPath cursorFindPathLoop
    simp [hne, hhit]
  · intro sdec roots sid f h
    induction roots with
    | nil => simp [ocFindSessionPath] at h
    | cons r rest ih =>
      rw [ocFindSessionPath] at h
      revert h
      cases hin : ocFindLoop sdec sid r.sessionFiles with
      | none => intro h; exact ih h
      | some f2 =>
        intro h
        cases h
        exact ocFindLoop_hit hin

/-- C6 witness: a single DB holding the exact key is found by the exact
match. -/
theorem find_session_path_match_discipline_witness :
    cursorFindSessionPath (some [dbExact]) "abc" = some "second.vscdb" :=
  find_session_path_match_discipline.1 dbExact "abc" (by decide) rfl rfl
